import Mathlib

/-!
Verification development for the Flex Living reviews repository
(`src/api.py`, `src/streamlit_app.py`).

The Python code is shallowly embedded: raw review records (JSON objects)
become a structure of optional JSON-ish values; the two normalization
passes (`normalize_reviews` in `api.py`, the body of `load_reviews` in
`streamlit_app.py`), the filter block, the KPI aggregation, and
`save_reviews` become executable Lean functions.  Dates are modelled as
`Option Int` (an ordinal; `none` plays the role of pandas `NaT`), and the
two external date parsers (`datetime.fromisoformat`,
`pd.to_datetime(..., errors="coerce")`) are passed in as function
parameters, so theorems about fallback order hold for any parser.
-/

/-- A JSON-ish scalar value as it appears in a raw review record.
`null` models Python `None` / pandas `NaN`; numbers are modelled as `ℚ`. -/
inductive Val where
  | null : Val
  | bool : Bool → Val
  | num : ℚ → Val
  | str : String → Val
  deriving DecidableEq, Repr

/-- Python truthiness of a value (used by `a or b` and by `bool(x)`). -/
def Val.truthy : Val → Bool
  | .null => false
  | .bool b => b
  | .num q => q ≠ 0
  | .str s => s ≠ ""

/-- Python `str(x)` as used in the f-string `f"cat_{cat.get('category')}"`:
`None` prints as `"None"`, booleans as `"True"`/`"False"`. -/
def Val.pyStr : Val → String
  | .null => "None"
  | .bool true => "True"
  | .bool false => "False"
  | .num q => toString q
  | .str s => s

/-- `r.get(k)` on a field modelled as `Option Val`: an absent key yields
Python `None`, i.e. `Val.null`. -/
def pyGet (o : Option Val) : Val := o.getD Val.null

/-- `r.get(k, d)`: an absent key yields the supplied default. -/
def pyGetD (o : Option Val) (d : Val) : Val := o.getD d

/-- One entry of a raw record's `reviewCategory` list
(a JSON object read via `cat.get("category")` / `cat.get("rating")`). -/
structure CatEntry where
  category : Option Val := none
  rating : Option Val := none
  deriving DecidableEq, Repr

/-- A raw review record as received in the envelope.  Fields the Python
code reads are explicit; everything else (fields unknown to the canonical
model, which must round-trip on save) lives in `extra`.  `none` means the
key is absent; `some v` means the key is present with value `v`. -/
structure RawRecord where
  id : Option Val := none
  listingId : Option Val := none
  listingName : Option Val := none
  rtype : Option Val := none
  status : Option Val := none
  rating : Option Val := none
  publicReview : Option Val := none
  channel : Option Val := none
  channelId : Option Val := none
  guestName : Option Val := none
  displayOnWebsite : Option Val := none
  date : Option Val := none
  created : Option Val := none
  reviewCategory : Option (List CatEntry) := none
  extra : List (String × Val) := []
  deriving DecidableEq, Repr

/-- A normalized review row as built by `load_reviews`
(`streamlit_app.py` lines 72-96).  `date` is the parsed timestamp
(`none` = `NaT`); `cats` is the flattened `cat_<category>` mapping in
dict insertion order. -/
structure Review where
  id : Val := Val.null
  listingId : Val := Val.null
  listingName : Val := Val.null
  rtype : Val := Val.null
  status : Val := Val.null
  rating : Val := Val.null
  publicReview : Val := Val.null
  channel : Val := Val.null
  channelId : Val := Val.null
  guestName : Val := Val.null
  displayOnWebsite : Val := Val.bool false
  date : Option Int := none
  cats : List (String × Val) := []
  deriving DecidableEq, Repr

/-- Python dict assignment `m[k] = v` on an assoc list: replace in place
when the key exists (update keeps the key's position), append otherwise. -/
def dictInsert (m : List (String × Val)) (k : String) (v : Val) : List (String × Val) :=
  if m.any (fun p => p.1 = k) then
    m.map (fun p => if p.1 = k then (k, v) else p)
  else
    m ++ [(k, v)]

/-- Dict lookup on the assoc list (first binding wins; keys stay unique
under `dictInsert` from `[]`). -/
def alookup (m : List (String × Val)) (k : String) : Option Val :=
  match m with
  | [] => none
  | p :: t => if p.1 = k then some p.2 else alookup t k

/-- The flattened key `f"cat_{cat.get('category')}"` of one category entry. -/
def catKey (c : CatEntry) : String := "cat_" ++ (pyGet c.category).pyStr

/-- Category flattening (`streamlit_app.py` lines 94-95, `api.py` 33-34):
`base[f"cat_{cat.get('category')}"] = cat.get("rating")` over the list. -/
def flattenCats (es : List CatEntry) : List (String × Val) :=
  es.foldl (fun m c => dictInsert m (catKey c) (pyGet c.rating)) []

/-- `date_str = r.get("date") or r.get("created")`: Python `or` keeps the
left value when truthy, otherwise evaluates to the right one. -/
def dateStr (r : RawRecord) : Val :=
  if (pyGet r.date).truthy then pyGet r.date else pyGet r.created

/-- Date parsing in `load_reviews` (`streamlit_app.py` lines 87-92):
try `datetime.fromisoformat(date_str)` (raises on a non-string or a
non-ISO string), then fall back to `pd.to_datetime(date_str,
errors="coerce")`, whose failure is `NaT` (`none`).  On a non-string
`date_str` (typically `None` when both fields are absent) the ISO parse
raises and the coercing parse yields `NaT`. -/
def parseDateApp (iso lenient : String → Option Int) (r : RawRecord) : Option Int :=
  match dateStr r with
  | .str s =>
    match iso s with
    | some d => some d
    | none => lenient s
  | _ => none

/-- Date handling in `normalize_reviews` (`api.py` lines 28-32): on ISO
success store `datetime.fromisoformat(date_str).isoformat()`; on any
failure store `date_str` itself, unparsed (there is no lenient fallback
and no nulling). -/
def parseDateApi (iso : String → Option String) (r : RawRecord) : Val :=
  match dateStr r with
  | .str s =>
    match iso s with
    | some i => .str i
    | none => .str s
  | v => v

/-- The `base` row built for one raw record by `load_reviews`
(`streamlit_app.py` lines 73-96). -/
def normRecord (iso lenient : String → Option Int) (r : RawRecord) : Review :=
  { id := pyGet r.id
    listingId := pyGet r.listingId
    listingName := pyGet r.listingName
    rtype := pyGet r.rtype
    status := pyGet r.status
    rating := pyGet r.rating
    publicReview := pyGet r.publicReview
    channel := pyGet r.channel
    channelId := pyGet r.channelId
    guestName := pyGet r.guestName
    displayOnWebsite := pyGetD r.displayOnWebsite (Val.bool false)
    date := parseDateApp iso lenient r
    cats := flattenCats (r.reviewCategory.getD []) }

/-- The normalization loop of `load_reviews` over the batch list. -/
def load_reviews (iso lenient : String → Option Int) (raws : List RawRecord) : List Review :=
  raws.map (normRecord iso lenient)

/-- The row `normalize_reviews` in `api.py` builds for one raw record;
identical to the dashboard row except for the date handling, so it is
expressed as that row with the api date value carried alongside. -/
def apiRow (iso : String → Option String) (r : RawRecord) : Review × Val :=
  (normRecord (fun _ => none) (fun _ => none) r, parseDateApi iso r)

/-- The inbound envelope: a JSON object that may carry a `result` list
and/or a `data` list (plus anything else, irrelevant to the code). -/
structure Envelope where
  result : Option (List RawRecord) := none
  data : Option (List RawRecord) := none
  deriving DecidableEq, Repr

/-- `raw_json.get("result", [])` (`api.py` line 12, `streamlit_app.py`
line 70): the batch the code actually iterates. -/
def batchOf (e : Envelope) : List RawRecord := e.result.getD []

/-- Envelope-to-store pipeline of `load_reviews`. -/
def loadEnvelope (iso lenient : String → Option Int) (e : Envelope) : List Review :=
  load_reviews iso lenient (batchOf e)

/-- The filter criteria of the sidebar (`streamlit_app.py` lines 134-151):
`none` models the "All" selection (resp. an empty search box is `""`). -/
structure Criteria where
  listing : Option Val
  channel : Option Val
  minRating : ℚ
  maxRating : ℚ
  category : Option String
  startDate : Int
  endDate : Int
  search : String

/-- `(filtered["rating"] >= min_rating) & (filtered["rating"] <= max_rating)`:
pandas comparisons against `NaN`/`None` are `False`, so a null (or
non-numeric) rating never matches any bound. -/
def ratingMatch (lo hi : ℚ) (r : Review) : Bool :=
  match r.rating with
  | .num q => decide (lo ≤ q) && decide (q ≤ hi)
  | _ => false

/-- `(filtered["date"].dt.date >= start_date) & (... <= end_date)`:
`NaT` compares `False` against both bounds. -/
def dateMatch (lo hi : Int) (r : Review) : Bool :=
  match r.date with
  | some d => decide (lo ≤ d) && decide (d ≤ hi)
  | none => false

/-- `filtered[colname].notna()` for the selected category column: a row
matches only when it carries the key with a non-null rating. -/
def catMatch (c : String) (r : Review) : Bool :=
  match alookup r.cats ("cat_" ++ c) with
  | some v => v ≠ Val.null
  | none => false

/-- Case-insensitive substring test on character lists. -/
def containsSub (hay needle : List Char) : Bool :=
  match hay with
  | [] => needle.isEmpty
  | _ :: t => needle.isPrefixOf hay || containsSub t needle

/-- `series.fillna("").str.contains(q, case=False, na=False)` on one cell:
only string cells can contain a (non-empty) query. -/
def searchField (v : Val) (q : String) : Bool :=
  match v with
  | .str s => containsSub s.toLower.toList q.toLower.toList
  | _ => false

/-- The text-search mask (`streamlit_app.py` line 175): review text OR
guest name contains the query, case-insensitively. -/
def searchMatch (q : String) (r : Review) : Bool :=
  searchField r.publicReview q || searchField r.guestName q

/-- The filtering block (`streamlit_app.py` lines 161-176), as a function
of the criteria and the full dataframe rows.  The category branch first
checks `colname in filtered.columns`; the dataframe's columns come from
every row of the original `df`, so the check is against all input rows. -/
def applyFilter (c : Criteria) (rows : List Review) : List Review :=
  let f1 := match c.listing with
    | none => rows
    | some v => rows.filter (fun r => r.listingName = v)
  let f2 := match c.channel with
    | none => f1
    | some v => f1.filter (fun r => r.channel = v)
  let f3 := f2.filter (ratingMatch c.minRating c.maxRating)
  let f4 := match c.category with
    | none => f3
    | some cat =>
      if rows.any (fun r => (alookup r.cats ("cat_" ++ cat)).isSome) then
        f3.filter (catMatch cat)
      else []
  let f5 := f4.filter (dateMatch c.startDate c.endDate)
  if c.search = "" then f5 else f5.filter (searchMatch c.search)

/-- The all-"All" criteria of claim C2: no listing, no channel, rating
range `[0, 10]` (the slider's full extent), no category, the given date
range, empty search text. -/
def allUnset (lo hi : Int) : Criteria :=
  { listing := none, channel := none, minRating := 0, maxRating := 10,
    category := none, startDate := lo, endDate := hi, search := "" }

/-- A KPI value: a number, pandas `NaN`, or the literal `"N/A"` sentinel
the dashboard substitutes on empty input. -/
inductive Metric where
  | num : ℚ → Metric
  | nan : Metric
  | na : Metric
  deriving DecidableEq, Repr

/-- Floor of a rational, computed on its reduced fraction (the
denominator is positive, so flooring division gives the floor). -/
def ratFloor (q : ℚ) : ℤ := Int.fdiv q.num q.den

/-- Python `round(x, n)` rounds half to even; on the embedded rationals. -/
def roundHalfEven (q : ℚ) : ℤ :=
  if q - ratFloor q < 1/2 then ratFloor q
  else if q - ratFloor q > 1/2 then ratFloor q + 1
  else if ratFloor q % 2 = 0 then ratFloor q else ratFloor q + 1

/-- `round(x, 2)`. -/
def round2 (q : ℚ) : ℚ := (roundHalfEven (q * 100) : ℚ) / 100

/-- `round(x, 1)`. -/
def round1 (q : ℚ) : ℚ := (roundHalfEven (q * 10) : ℚ) / 10

/-- The numeric ratings of a row list (pandas `mean` skips `NaN`). -/
def numRatings (rows : List Review) : List ℚ :=
  rows.filterMap (fun r => match r.rating with | .num q => some q | _ => none)

/-- `avg_rating` (`streamlit_app.py` line 185):
`round(filtered["rating"].mean(), 2) if not filtered.empty else "N/A"`.
A non-empty frame whose ratings are all null has `mean() = NaN`. -/
def avgRating (rows : List Review) : Metric :=
  if rows.isEmpty then .na
  else if (numRatings rows).isEmpty then .nan
  else .num (round2 ((numRatings rows).sum / (numRatings rows).length))

/-- Rows whose `displayOnWebsite` is the boolean `True` (the column holds
booleans: absent flags default to `False` at load, saves write `bool(x)`). -/
def displayedCount (rows : List Review) : Nat :=
  (rows.filter (fun r => r.displayOnWebsite = Val.bool true)).length

/-- `percent_displayed` (`streamlit_app.py` line 188):
`round(100 * filtered["displayOnWebsite"].mean(), 1) if not filtered.empty
else 0` — on empty input the numeric `0`, not a sentinel. -/
def percentDisplayed (rows : List Review) : Metric :=
  if rows.isEmpty then .num 0
  else .num (round1 (100 * (displayedCount rows : ℚ) / (rows.length : ℚ)))

/-- The KPI summary over the filtered rows (`streamlit_app.py` 183-189):
the review count, the average rating, the percent displayed. -/
structure Summary where
  totalReviews : Nat
  avg : Metric
  pctDisplayed : Metric
  deriving DecidableEq, Repr

/-- Summarize a (filtered) row list. -/
def summarize (rows : List Review) : Summary :=
  { totalReviews := rows.length
    avg := avgRating rows
    pctDisplayed := percentDisplayed rows }

/-- `df.set_index("id")["displayOnWebsite"].to_dict()` then dict lookup:
with duplicate ids the last row's flag wins, which is the flag of the
last store row with that id. -/
def lookupFlag (store : List Review) (k : Val) : Option Val :=
  (store.filter (fun rv => rv.id = k)).getLast?.map (fun rv => rv.displayOnWebsite)

/-- The overlay `save_reviews` applies to one raw record
(`streamlit_app.py` lines 107-109): if the record's id is a key of the
flag dict, set `r["displayOnWebsite"] = bool(flag)`; otherwise leave the
record untouched. -/
def overlayFlag (store : List Review) (r : RawRecord) : RawRecord :=
  match lookupFlag store (pyGet r.id) with
  | some v => { r with displayOnWebsite := some (Val.bool v.truthy) }
  | none => r

/-- `save_reviews` restricted to its data transformation: the raw batch
with the in-memory display flags overlaid by id. -/
def save_reviews (raws : List RawRecord) (store : List Review) : List RawRecord :=
  raws.map (overlayFlag store)

/-- A raw record with its `displayOnWebsite` field blanked, to state that
save changes nothing else. -/
def eraseFlag (r : RawRecord) : RawRecord := { r with displayOnWebsite := none }

/-- Replace the display flags of a store positionally (the only in-memory
mutation the dashboard performs, line 257). -/
def setFlags (rs : List Review) (bs : List Bool) : List Review :=
  List.zipWith (fun r b => { r with displayOnWebsite := Val.bool b }) rs bs

/-- File-system operations, to model the write in `save_reviews`
(`streamlit_app.py` lines 110-111). -/
inductive FsOp where
  | openTrunc : String → FsOp
  | writeChunk : String → FsOp
  | close : FsOp
  | rename : String → String → FsOp
  deriving DecidableEq, Repr

/-- The operation trace of `with path.open("w") as f: json.dump(..., f)`:
truncate-open the snapshot path itself, stream the serialized chunks,
close.  No temporary file, no rename. -/
def saveFileOps (path : String) (payload : List String) : List FsOp :=
  FsOp.openTrunc path :: (payload.map FsOp.writeChunk ++ [FsOp.close])

/-- Does this operation rename something onto the target path? -/
def isRenameTo (target : String) : FsOp → Bool
  | .rename _ dst => dst = target
  | _ => false

/-- Does this operation truncate-open the target path itself? -/
def isTruncOf (target : String) : FsOp → Bool
  | .openTrunc p => p = target
  | _ => false

/-- Modelled from the spec: "write to a temporary location then replace"
— the trace must rename something onto the target and must never
truncate-open the target directly. -/
def writesTempThenReplace (target : String) (ops : List FsOp) : Bool :=
  ops.any (isRenameTo target) && !(ops.any (isTruncOf target))

/-- The durable content of the snapshot file after a prefix of the trace
runs (single-file model: only operations on `target` matter). -/
def runOps (target : String) (init : String) (ops : List FsOp) : String :=
  ops.foldl (fun content op =>
    match op with
    | .openTrunc p => if p = target then "" else content
    | .writeChunk s => content ++ s
    | .close => content
    | .rename _ dst => if dst = target then content else content) init

/-- Two-digit decimal reading, for the concrete ISO-date model below. -/
def digits2 (a b : Char) : Option Nat :=
  if a.isDigit && b.isDigit then some ((a.toNat - 48) * 10 + (b.toNat - 48)) else none

/-- A concrete stand-in for `datetime.fromisoformat` restricted to plain
`YYYY-MM-DD` dates, returning the date as the ordinal `yyyymmdd`, used to
instantiate the parser parameters in witnesses and counterexamples. -/
def isoDate? (s : String) : Option Int :=
  match s.toList with
  | [y1, y2, y3, y4, h1, m1, m2, h2, d1, d2] =>
    match digits2 y1 y2, digits2 y3 y4, digits2 m1 m2, digits2 d1 d2 with
    | some yh, some yl, some m, some d =>
      if h1 = '-' && h2 = '-' && 1 ≤ m && m ≤ 12 && 1 ≤ d && d ≤ 31 then
        some ((((yh * 100 + yl) * 100 + m) * 100 + d : Nat) : Int)
      else none
    | _, _, _, _ => none
  | _ => none

/-- The same stand-in for the api route, where success re-serializes the
parsed date (`datetime.fromisoformat(s).isoformat()`, here the plain date
string itself). -/
def isoDateStr? (s : String) : Option String :=
  (isoDate? s).map (fun _ => s)

/-- A lenient parser that fails everywhere: models
`pd.to_datetime(s, errors="coerce")` on an unparsable string. -/
def lenientNone : String → Option Int := fun _ => none

/-- Looking up a key untouched by the in-place replacement of another key
leaves the lookup unchanged. -/
theorem alookup_map_set_ne (t : List (String × Val)) (k k' : String) (v : Val)
    (h : ¬ k' = k) :
    alookup (t.map (fun p => if p.1 = k then (k, v) else p)) k' = alookup t k' := by
  induction t with
  | nil => rfl
  | cons p t ih =>
    by_cases hp : p.1 = k
    · simp [alookup, hp, Ne.symm h, ih]
    · simp [alookup, hp, ih]

/-- Replacing an existing key in place makes the lookup return the new
value. -/
theorem alookup_map_set_self (t : List (String × Val)) (k : String) (v : Val)
    (hany : t.any (fun p => p.1 = k) = true) :
    alookup (t.map (fun p => if p.1 = k then (k, v) else p)) k = some v := by
  induction t with
  | nil => simp at hany
  | cons p t ih =>
    by_cases hp : p.1 = k
    · simp [alookup, hp]
    · rw [List.any_cons, Bool.or_eq_true] at hany
      cases hany with
      | inl h1 => exact absurd (of_decide_eq_true h1) hp
      | inr h2 => simp [alookup, hp, ih h2]

/-- Lookup in a list extended by one binding at the end. -/
theorem alookup_append_one (m : List (String × Val)) (k k' : String) (v : Val) :
    alookup (m ++ [(k, v)]) k' =
      match alookup m k' with
      | some w => some w
      | none => if k = k' then some v else none := by
  induction m with
  | nil => rfl
  | cons p t ih =>
    by_cases hp : p.1 = k'
    · simp [alookup, hp]
    · simp only [List.cons_append]
      simp [alookup, hp, ih]

/-- A key absent from the assoc list looks up to `none`. -/
theorem alookup_eq_none (m : List (String × Val)) (k : String)
    (h : m.any (fun p => p.1 = k) = false) : alookup m k = none := by
  induction m with
  | nil => rfl
  | cons p t ih =>
    rw [List.any_cons, Bool.or_eq_false_iff] at h
    simp [alookup, decide_eq_false_iff_not.mp h.1, ih h.2]

/-- The dict-assignment/lookup law: after `m[k] = v`, looking up `k` gives
`v` and every other key is unchanged. -/
theorem alookup_dictInsert (m : List (String × Val)) (k k' : String) (v : Val) :
    alookup (dictInsert m k v) k' = if k' = k then some v else alookup m k' := by
  unfold dictInsert
  by_cases hany : m.any (fun p => p.1 = k) = true
  · rw [if_pos hany]
    by_cases hk : k' = k
    · subst hk; rw [if_pos rfl, alookup_map_set_self m k' v hany]
    · rw [alookup_map_set_ne m k k' v hk, if_neg hk]
  · rw [if_neg hany, alookup_append_one]
    have hnone : alookup m k = none := alookup_eq_none m k (Bool.eq_false_iff.mpr hany)
    by_cases hk : k' = k
    · subst hk
      simp [hnone]
    · rw [if_neg hk]
      cases halk : alookup m k' with
      | none => simp [Ne.symm hk]
      | some w => rfl

/-- `getLast?` of a cons: the last of the tail, or the head when the tail
is empty. -/
theorem getLast?_cons_eq {α : Type} (a : α) (l : List α) :
    (a :: l).getLast? = some (l.getLast?.getD a) := by
  induction l generalizing a with
  | nil => simp
  | cons b t ih =>
    rw [List.getLast?_cons_cons, ih b]
    rfl

/-- Lookup in the flattened category map: last write wins — the value is
the rating of the last raw entry whose flattened key is `k`. -/
theorem alookup_foldl_cats (es : List CatEntry) (m : List (String × Val)) (k : String) :
    alookup (es.foldl (fun m2 c => dictInsert m2 (catKey c) (pyGet c.rating)) m) k =
      match (es.filter (fun c => catKey c = k)).getLast? with
      | some c => some (pyGet c.rating)
      | none => alookup m k := by
  induction es generalizing m with
  | nil => rfl
  | cons c es ih =>
    rw [List.foldl_cons, ih]
    by_cases hc : catKey c = k
    · rw [List.filter_cons_of_pos (by simpa using hc), getLast?_cons_eq]
      cases hlast : (es.filter (fun c2 => catKey c2 = k)).getLast? with
      | some c2 => simp [hlast]
      | none => simp [hlast, alookup_dictInsert, hc]
    · rw [List.filter_cons_of_neg (by simpa using hc)]
      cases hlast : (es.filter (fun c2 => catKey c2 = k)).getLast? with
      | some c2 => simp [hlast]
      | none => simp [hlast, alookup_dictInsert, Ne.symm hc]

/-- The characterization specialized to `flattenCats`. -/
theorem alookup_flattenCats (es : List CatEntry) (k : String) :
    alookup (flattenCats es) k =
      ((es.filter (fun c => catKey c = k)).getLast?).map (fun c => pyGet c.rating) := by
  rw [flattenCats, alookup_foldl_cats]
  cases (es.filter (fun c => catKey c = k)).getLast? <;> rfl

/-- Blanking the display flag commutes with the save overlay: save touches
nothing but `displayOnWebsite`. -/
theorem eraseFlag_overlayFlag (store : List Review) (r : RawRecord) :
    eraseFlag (overlayFlag store r) = eraseFlag r := by
  unfold overlayFlag
  cases lookupFlag store (pyGet r.id) <;> rfl

/-- Frame property of save: apart from `displayOnWebsite`, the raw batch
is returned exactly as loaded (order, length, and every field, including
fields unknown to the canonical model). -/
theorem save_reviews_frame (raws : List RawRecord) (store : List Review) :
    (save_reviews raws store).map eraseFlag = raws.map eraseFlag := by
  rw [save_reviews, List.map_map]
  exact List.map_congr_left (fun r _ => eraseFlag_overlayFlag store r)

/-- Normalizing a record whose display flag was overwritten gives the
previously normalized row with that flag. -/
theorem normRecord_setFlag (iso lenient : String → Option Int) (r : RawRecord) (v : Val) :
    normRecord iso lenient { r with displayOnWebsite := some v } =
      { normRecord iso lenient r with displayOnWebsite := v } := rfl

/-- One step of `setFlags`. -/
theorem setFlags_cons (x : Review) (L : List Review) (b : Bool) (bs : List Bool) :
    setFlags (x :: L) (b :: bs) =
      { x with displayOnWebsite := Val.bool b } :: setFlags L bs := rfl

/-- `setFlags` keeps the id column. -/
theorem setFlags_map_id (L : List Review) :
    ∀ (bs : List Bool), bs.length = L.length →
      (setFlags L bs).map (fun rv => rv.id) = L.map (fun rv => rv.id) := by
  induction L with
  | nil =>
    intro bs h
    rw [List.length_nil, List.length_eq_zero] at h
    subst h
    rfl
  | cons x L ih =>
    intro bs h
    cases bs with
    | nil => simp at h
    | cons b bs =>
      rw [setFlags_cons, List.map_cons, List.map_cons, ih bs (by simpa using h)]

/-- A non-matching head does not change the flag lookup. -/
theorem lookupFlag_cons_ne (x : Review) (store : List Review) (k : Val)
    (h : ¬ x.id = k) :
    lookupFlag (x :: store) k = lookupFlag store k := by
  simp [lookupFlag, List.filter_cons, h]

/-- When the head is the only row with the key, the flag lookup returns
the head's flag. -/
theorem lookupFlag_cons_head (x : Review) (store : List Review) (k : Val)
    (hx : x.id = k) (hs : ∀ y ∈ store, ¬ y.id = k) :
    lookupFlag (x :: store) k = some x.displayOnWebsite := by
  have hnil : store.filter (fun rv => decide (rv.id = k)) = [] :=
    List.filter_eq_nil_iff.mpr (fun y hy => by simpa using hs y hy)
  simp [lookupFlag, List.filter_cons, hx, hnil]

/-- Core of the save/load round trip: with unique ids, reloading the
saved batch reproduces the in-memory store exactly. -/
theorem roundtrip_aux (iso lenient : String → Option Int) (raws : List RawRecord) :
    ∀ (bs : List Bool), bs.length = raws.length →
      ((raws.map (fun x => pyGet x.id)).Nodup) →
      load_reviews iso lenient
          (save_reviews raws (setFlags (load_reviews iso lenient raws) bs))
        = setFlags (load_reviews iso lenient raws) bs := by
  induction raws with
  | nil =>
    intro bs _ _
    cases bs <;> rfl
  | cons r raws ih =>
    intro bs hlen hnodup
    cases bs with
    | nil => exact absurd hlen (by simp)
    | cons b bs =>
      have hlen' : bs.length = raws.length := by simpa using hlen
      have hcons := List.nodup_cons.mp (by simpa only [List.map_cons] using hnodup)
      have hhead : pyGet r.id ∉ raws.map (fun x => pyGet x.id) := hcons.1
      have hnodup' : (raws.map (fun x => pyGet x.id)).Nodup := hcons.2
      have hLids : (load_reviews iso lenient raws).map (fun rv => rv.id)
          = raws.map (fun x => pyGet x.id) := by
        rw [load_reviews, List.map_map]
        rfl
      have hlenL : bs.length = (load_reviews iso lenient raws).length := by
        rw [load_reviews, List.length_map]
        exact hlen'
      have hstore : ∀ y ∈ setFlags (load_reviews iso lenient raws) bs,
          ¬ y.id = pyGet r.id := by
        intro y hy heq
        apply hhead
        rw [← hLids, ← setFlags_map_id (load_reviews iso lenient raws) bs hlenL, ← heq]
        exact List.mem_map_of_mem _ hy
      have hlook : lookupFlag
          ({ normRecord iso lenient r with displayOnWebsite := Val.bool b }
            :: setFlags (load_reviews iso lenient raws) bs) (pyGet r.id)
          = some (Val.bool b) :=
        lookupFlag_cons_head _ _ _ rfl hstore
      have hover : overlayFlag
          ({ normRecord iso lenient r with displayOnWebsite := Val.bool b }
            :: setFlags (load_reviews iso lenient raws) bs) r
          = { r with displayOnWebsite := some (Val.bool b) } := by
        unfold overlayFlag
        rw [hlook]
        rfl
      have hnorm : normRecord iso lenient (overlayFlag
          ({ normRecord iso lenient r with displayOnWebsite := Val.bool b }
            :: setFlags (load_reviews iso lenient raws) bs) r)
          = { normRecord iso lenient r with displayOnWebsite := Val.bool b } := by
        rw [hover, normRecord_setFlag]
      have hsave : save_reviews raws
          ({ normRecord iso lenient r with displayOnWebsite := Val.bool b }
            :: setFlags (load_reviews iso lenient raws) bs)
          = save_reviews raws (setFlags (load_reviews iso lenient raws) bs) := by
        unfold save_reviews
        apply List.map_congr_left
        intro x hx
        have hne : ¬ ({ normRecord iso lenient r with
            displayOnWebsite := Val.bool b } : Review).id = pyGet x.id := by
          intro heq
          apply hhead
          have hmem : pyGet x.id ∈ raws.map (fun x2 => pyGet x2.id) :=
            List.mem_map_of_mem _ hx
          have heq' : pyGet r.id = pyGet x.id := heq
          rw [heq']
          exact hmem
        unfold overlayFlag
        rw [lookupFlag_cons_ne _ _ _ hne]
      show normRecord iso lenient (overlayFlag
            ({ normRecord iso lenient r with displayOnWebsite := Val.bool b }
              :: setFlags (load_reviews iso lenient raws) bs) r)
          :: load_reviews iso lenient (save_reviews raws
            ({ normRecord iso lenient r with displayOnWebsite := Val.bool b }
              :: setFlags (load_reviews iso lenient raws) bs))
          = { normRecord iso lenient r with displayOnWebsite := Val.bool b }
            :: setFlags (load_reviews iso lenient raws) bs
      rw [hnorm, hsave, ih bs hlen' hnodup']

/-- A small concrete raw record (id 1) used in witnesses, carrying a
field unknown to the canonical model. -/
def demoRaw1 : RawRecord :=
  { id := some (Val.num 1), rating := some (Val.num 8),
    date := some (Val.str "2024-01-15"),
    extra := [("customField", Val.str "keep-me")] }

/-- A second concrete raw record (id 2, nothing else). -/
def demoRaw2 : RawRecord := { id := some (Val.num 2) }

/-- A concrete normalized review with a numeric rating and a parsed date. -/
def demoReview : Review := { id := Val.num 1, rating := Val.num 8, date := some 20240115 }

/-- A concrete normalized review with a null rating but a parsed date. -/
def demoNullRating : Review := { id := Val.num 2, date := some 20240115 }

/-- C1 (amended): only the `result` envelope shape is accepted: a batch
wrapped as `result` normalizes to the normalization of its records, while
the same batch wrapped as `data` is ignored and yields the empty review
list — the two observed envelope shapes do not yield the same normalized
list. -/
theorem envelope_result_only (iso lenient : String → Option Int) (rs : List RawRecord) :
    loadEnvelope iso lenient { result := some rs } = load_reviews iso lenient rs
    ∧ loadEnvelope iso lenient { data := some rs } = [] :=
  ⟨rfl, rfl⟩

/-- C1 counterexample: a concrete one-record batch normalizes differently
under the `result` and the `data` envelope shape, refuting the claim that
both shapes are accepted and yield the same normalized review list. -/
theorem envelope_data_ignored_cex :
    loadEnvelope isoDate? lenientNone { data := some [demoRaw2] } = []
    ∧ loadEnvelope isoDate? lenientNone { result := some [demoRaw2] }
        = [normRecord isoDate? lenientNone demoRaw2]
    ∧ ([] : List Review) ≠ [normRecord isoDate? lenientNone demoRaw2] :=
  ⟨rfl, rfl, fun h => List.noConfusion h⟩

/-- C2 (amended): with every criterion unset/"All", the filter preserves
order and content of every review whose rating is numeric and within
[0, 10] and whose date is parsed and within the selected range; it is the
identity on lists of such reviews.  (The rating and date conditions are
applied unconditionally, so rows with a null rating or null date are
dropped even by the all-"All" criteria.) -/
theorem filter_allUnset_id (rows : List Review) (lo hi : Int)
    (hrat : ∀ r ∈ rows, ratingMatch 0 10 r = true)
    (hdat : ∀ r ∈ rows, dateMatch lo hi r = true) :
    applyFilter (allUnset lo hi) rows = rows := by
  show (rows.filter (ratingMatch 0 10)).filter (dateMatch lo hi) = rows
  rw [List.filter_eq_self.mpr hrat]
  exact List.filter_eq_self.mpr hdat

/-- C2 witness at a concrete one-review list. -/
theorem filter_allUnset_id_witness :
    applyFilter (allUnset 20240101 20241231) [demoReview] = [demoReview] :=
  filter_allUnset_id [demoReview] 20240101 20241231
    (by intro r hr; rw [List.mem_singleton] at hr; subst hr; decide)
    (by intro r hr; rw [List.mem_singleton] at hr; subst hr; decide)

/-- C2 counterexample: a review whose rating is null (raw field missing)
is dropped by the all-"All" criteria even though its date is in range, so
the filter does not return the input list unchanged. -/
theorem filter_allUnset_cex :
    applyFilter (allUnset 20240101 20241231) [demoNullRating] = []
    ∧ [demoNullRating] ≠ ([] : List Review) :=
  ⟨rfl, fun h => List.noConfusion h⟩

/-- C3: save overlays exactly the in-memory display flags onto the raw
records (matched by id) and changes nothing else — order, length and
every other field, including fields unknown to the canonical model, are
byte-identical — and, with ids unique within the snapshot, reloading the
saved snapshot reproduces the in-memory store: the display flags set
before the save and identical values for every other field. -/
theorem save_then_load_roundtrip (iso lenient : String → Option Int)
    (raws : List RawRecord) (bs : List Bool)
    (hlen : bs.length = raws.length)
    (hnodup : (raws.map (fun x => pyGet x.id)).Nodup) :
    (save_reviews raws (setFlags (load_reviews iso lenient raws) bs)).map eraseFlag
        = raws.map eraseFlag
    ∧ load_reviews iso lenient
          (save_reviews raws (setFlags (load_reviews iso lenient raws) bs))
        = setFlags (load_reviews iso lenient raws) bs :=
  ⟨save_reviews_frame raws _, roundtrip_aux iso lenient raws bs hlen hnodup⟩

/-- C3 witness on a concrete two-record snapshot with distinct ids and an
unknown extra field. -/
theorem save_then_load_roundtrip_witness :
    (save_reviews [demoRaw1, demoRaw2]
        (setFlags (load_reviews isoDate? lenientNone [demoRaw1, demoRaw2]) [true, false])).map eraseFlag
        = [demoRaw1, demoRaw2].map eraseFlag
    ∧ load_reviews isoDate? lenientNone
          (save_reviews [demoRaw1, demoRaw2]
            (setFlags (load_reviews isoDate? lenientNone [demoRaw1, demoRaw2]) [true, false]))
        = setFlags (load_reviews isoDate? lenientNone [demoRaw1, demoRaw2]) [true, false] :=
  save_then_load_roundtrip isoDate? lenientNone [demoRaw1, demoRaw2] [true, false]
    (by decide) (by decide)

/-- The save trace contains no rename at all. -/
theorem saveFileOps_rename_free (path target : String) (payload : List String) :
    (saveFileOps path payload).any (isRenameTo target) = false := by
  unfold saveFileOps
  rw [List.any_cons]
  have hhd : isRenameTo target (FsOp.openTrunc path) = false := rfl
  rw [hhd, Bool.false_or]
  induction payload with
  | nil => rfl
  | cons s t ih =>
    rw [List.map_cons, List.cons_append, List.any_cons]
    have hs : isRenameTo target (FsOp.writeChunk s) = false := rfl
    rw [hs, Bool.false_or]
    exact ih

/-- Running the write chunks folds their concatenation onto the current
content. -/
theorem runOps_chunks (target : String) (chunks : List String) :
    ∀ (acc : String), runOps target acc (chunks.map FsOp.writeChunk)
      = chunks.foldl (fun a s => a ++ s) acc := by
  induction chunks with
  | nil => intro acc; rfl
  | cons s t ih => intro acc; exact ih (acc ++ s)

/-- C4 (amended): save writes the durable snapshot in place, not
atomically: its trace truncate-opens the snapshot path itself, uses no
temporary-location-then-replace, and a crash after the first `k` write
chunks leaves the file holding exactly those `k` chunks — for `0 < k <
len` a half-written snapshot. -/
theorem save_writes_in_place (path : String) (payload : List String) (k : Nat)
    (hk : k ≤ payload.length) :
    (saveFileOps path payload).head? = some (FsOp.openTrunc path)
    ∧ writesTempThenReplace path (saveFileOps path payload) = false
    ∧ ∀ init, runOps path init ((saveFileOps path payload).take (k + 1))
        = (payload.take k).foldl (fun a s => a ++ s) "" := by
  refine ⟨rfl, ?_, ?_⟩
  · unfold writesTempThenReplace
    rw [saveFileOps_rename_free, Bool.false_and]
  · intro init
    have hlen : k ≤ (payload.map FsOp.writeChunk).length := by
      rw [List.length_map]; exact hk
    have htake : (saveFileOps path payload).take (k + 1)
        = FsOp.openTrunc path :: (payload.take k).map FsOp.writeChunk := by
      unfold saveFileOps
      rw [List.take_succ_cons, List.take_append_of_le_length hlen, List.map_take]
    rw [htake]
    have hopen : runOps path init (FsOp.openTrunc path :: (payload.take k).map FsOp.writeChunk)
        = runOps path "" ((payload.take k).map FsOp.writeChunk) := by
      show runOps path (if path = path then "" else init) _ = _
      rw [if_pos rfl]
    rw [hopen, runOps_chunks]

/-- C4 witness: the in-place-write theorem applied to a concrete
two-chunk trace, crashed after the first chunk. -/
theorem save_writes_in_place_witness :
    runOps "mock_reviews.json" "oldsnapshot"
        ((saveFileOps "mock_reviews.json" ["chunkA", "chunkB"]).take (1 + 1))
      = (["chunkA", "chunkB"].take 1).foldl (fun a s => a ++ s) "" :=
  (save_writes_in_place "mock_reviews.json" ["chunkA", "chunkB"] 1 (by decide)).2.2 "oldsnapshot"

/-- C4 counterexample: the concrete save trace has no
temporary-then-replace structure, and a crash after the first chunk
leaves "chunkA" in the snapshot file — neither the previous content
"oldsnapshot" nor the complete new content "chunkAchunkB" — i.e. a crash
mid-write leaves a half-written durable snapshot. -/
theorem save_atomicity_cex :
    writesTempThenReplace "mock_reviews.json"
        (saveFileOps "mock_reviews.json" ["chunkA", "chunkB"]) = false
    ∧ runOps "mock_reviews.json" "oldsnapshot"
        ((saveFileOps "mock_reviews.json" ["chunkA", "chunkB"]).take 2) = "chunkA"
    ∧ runOps "mock_reviews.json" "oldsnapshot"
        (saveFileOps "mock_reviews.json" ["chunkA", "chunkB"]) = "chunkAchunkB"
    ∧ ("chunkA" : String) ≠ "oldsnapshot"
    ∧ ("chunkA" : String) ≠ "chunkAchunkB" :=
  ⟨rfl, rfl, rfl, by decide, by decide⟩

/-- C5 (amended): summarizing the empty review sequence yields zero for
the count field and performs no division, but only the average-rating
ratio reports the "N/A" sentinel; the percent-displayed ratio reports
the plain number 0. -/
theorem summarize_empty :
    summarize [] = { totalReviews := 0, avg := Metric.na, pctDisplayed := Metric.num 0 } := rfl

/-- Floor of the rational zero. -/
theorem ratFloor_zero : ratFloor 0 = 0 := rfl

/-- Banker's rounding of zero. -/
theorem roundHalfEven_zero : roundHalfEven 0 = 0 := by
  unfold roundHalfEven
  rw [ratFloor_zero]
  norm_num

/-- One-decimal rounding of zero. -/
theorem round1_zero : round1 0 = 0 := by
  unfold round1
  norm_num [roundHalfEven_zero]

/-- C5 counterexample: the percent-displayed field on empty input is the
number 0 — not the "N/A"-style sentinel the average uses — and the very
same number 0 is produced by a non-empty input whose single review is not
displayed, so it is not a defined "no data" sentinel. -/
theorem summarize_empty_cex :
    (summarize []).pctDisplayed = Metric.num 0
    ∧ (summarize []).avg = Metric.na
    ∧ (summarize [demoReview]).pctDisplayed = Metric.num 0
    ∧ Metric.num 0 ≠ Metric.na := by
  refine ⟨rfl, rfl, ?_, by decide⟩
  show percentDisplayed [demoReview] = Metric.num 0
  show Metric.num (round1 (100 * ((displayedCount [demoReview] : ℕ) : ℚ)
      / (([demoReview].length : ℕ) : ℚ))) = Metric.num 0
  have h1 : displayedCount [demoReview] = 0 := rfl
  rw [h1]
  norm_num [round1_zero]

/-- A record with both a `date` and a `created` field. -/
def demoRawBoth : RawRecord :=
  { date := some (Val.str "2024-01-15"), created := some (Val.str "2023-01-01") }

/-- A record whose only date field holds an unparsable string. -/
def demoRawBad : RawRecord := { date := some (Val.str "bad-date") }

/-- C6 (amended): in the dashboard loader the normalized date prefers a
truthy `date` field, falls back to `created`, attempts the strict ISO
parse, then the lenient parse, and is null whenever both fail — the
record is kept and the raw record (`date`, `created`) is never modified,
also not by the save overlay.  In the api route's `normalize_reviews`,
by contrast, a failed ISO parse stores the raw string unparsed instead
of null (see the counterexample). -/
theorem date_parse_fallback_chain (iso lenient : String → Option Int)
    (r : RawRecord) (s : String) :
    ((pyGet r.date).truthy = true → dateStr r = pyGet r.date)
    ∧ ((pyGet r.date).truthy = false → dateStr r = pyGet r.created)
    ∧ (dateStr r = Val.str s → (normRecord iso lenient r).date =
        match iso s with
        | some d => some d
        | none => lenient s)
    ∧ (dateStr r = Val.str s → iso s = none → lenient s = none →
        (normRecord iso lenient r).date = none)
    ∧ (∀ store, (overlayFlag store r).date = r.date
        ∧ (overlayFlag store r).created = r.created) := by
  have h3 : dateStr r = Val.str s → (normRecord iso lenient r).date =
      match iso s with
      | some d => some d
      | none => lenient s := by
    intro hds
    show parseDateApp iso lenient r = _
    unfold parseDateApp
    rw [hds]
  refine ⟨?_, ?_, h3, ?_, ?_⟩
  · intro h
    unfold dateStr
    rw [if_pos h]
  · intro h
    unfold dateStr
    rw [if_neg (by rw [h]; exact Bool.false_ne_true)]
  · intro hds hiso hlen
    rw [h3 hds, hiso]
    exact hlen
  · intro store
    unfold overlayFlag
    cases lookupFlag store (pyGet r.id) <;> exact ⟨rfl, rfl⟩

/-- C6 witness: `date` wins over `created` when truthy, and an
unparsable date normalizes to null in the dashboard loader. -/
theorem date_parse_fallback_chain_witness :
    dateStr demoRawBoth = Val.str "2024-01-15"
    ∧ (normRecord isoDate? lenientNone demoRawBad).date = none :=
  ⟨by
    have h := (date_parse_fallback_chain isoDate? lenientNone demoRawBoth "2024-01-15").1
      (by decide)
    rw [h]
    rfl,
   (date_parse_fallback_chain isoDate? lenientNone demoRawBad "bad-date").2.2.2.1
    (by decide) (by decide) rfl⟩

/-- C6 counterexample: in `normalize_reviews` (`api.py`) a date string the
strict ISO parse rejects is stored as the raw string itself — there is no
lenient step and no nulling — so "whenever all parsing fails, the
normalized date is null" is false of the api normalization. -/
theorem api_date_kept_raw_cex :
    parseDateApi isoDateStr? demoRawBad = Val.str "bad-date"
    ∧ Val.str "bad-date" ≠ Val.null :=
  ⟨rfl, by decide⟩

/-- C7 (amended): normalization is total and keeps every record — one
output row per input record, positionally the normalization of that
record; no record is skipped and no "skipped" tally is produced (the
result is only the row list); a record with no usable fields degrades to
a row of nulls and defaults, its unrecoverable id becoming null. -/
theorem parse_keeps_every_record (iso lenient : String → Option Int)
    (raws : List RawRecord) (i : Nat) :
    (load_reviews iso lenient raws).length = raws.length
    ∧ (load_reviews iso lenient raws)[i]? = (raws[i]?).map (normRecord iso lenient)
    ∧ normRecord iso lenient {} =
      { id := Val.null, displayOnWebsite := Val.bool false, date := none, cats := [] } := by
  refine ⟨?_, ?_, rfl⟩
  · rw [load_reviews, List.length_map]
  · rw [load_reviews, List.getElem?_map]

/-- C7 counterexample: a record with an unrecoverable identifier (no
`id` key) is not skipped — it stays in the batch result as a row with a
null id, and no skipped count is returned. -/
theorem idless_not_skipped_cex :
    (load_reviews isoDate? lenientNone [{}]).length = 1
    ∧ (load_reviews isoDate? lenientNone [{}]).map (fun rv => rv.id) = [Val.null] :=
  ⟨rfl, rfl⟩

/-- C8 (amended): every id in the normalized store is present in the
input batch — the store's id sequence equals the batch's id sequence
position by position — but no uniqueness is enforced: a batch repeating
an id produces a store repeating it. -/
theorem store_ids_are_batch_ids (iso lenient : String → Option Int)
    (raws : List RawRecord) :
    (load_reviews iso lenient raws).map (fun rv => rv.id)
      = raws.map (fun r => pyGet r.id) := by
  rw [load_reviews, List.map_map]
  rfl

/-- C8 counterexample: a batch repeating id 2 yields a store whose id
list is [2, 2] — not unique within the loaded snapshot. -/
theorem duplicate_ids_cex :
    (load_reviews isoDate? lenientNone [demoRaw2, demoRaw2]).map (fun rv => rv.id)
      = [Val.num 2, Val.num 2]
    ∧ ¬ ([Val.num 2, Val.num 2] : List Val).Nodup :=
  ⟨rfl, by decide⟩

/-- C9 (amended): the normalized `displayOnWebsite` equals the upstream
value verbatim whenever the key is present — whatever its type, null
included — and defaults to boolean false only when the key is absent; no
boolean coercion happens during normalization. -/
theorem display_flag_default (iso lenient : String → Option Int) (r : RawRecord) :
    (r.displayOnWebsite = none → (normRecord iso lenient r).displayOnWebsite = Val.bool false)
    ∧ (∀ v, r.displayOnWebsite = some v → (normRecord iso lenient r).displayOnWebsite = v) := by
  constructor
  · intro h
    show pyGetD r.displayOnWebsite (Val.bool false) = Val.bool false
    rw [h]
    rfl
  · intro v h
    show pyGetD r.displayOnWebsite (Val.bool false) = v
    rw [h]
    rfl

/-- C9 witness: absent key defaults to false; a present boolean passes
through. -/
theorem display_flag_default_witness :
    (normRecord isoDate? lenientNone {}).displayOnWebsite = Val.bool false
    ∧ (normRecord isoDate? lenientNone
        { displayOnWebsite := some (Val.bool true) }).displayOnWebsite = Val.bool true :=
  ⟨(display_flag_default isoDate? lenientNone {}).1 rfl,
   (display_flag_default isoDate? lenientNone
      { displayOnWebsite := some (Val.bool true) }).2 (Val.bool true) rfl⟩

/-- C9 counterexample: an upstream record carrying a null
`displayOnWebsite` normalizes to a null flag — not a boolean — refuting
"a boolean and never null". -/
theorem display_flag_null_cex :
    (normRecord isoDate? lenientNone
        { displayOnWebsite := some Val.null }).displayOnWebsite = Val.null
    ∧ Val.null ≠ Val.bool false
    ∧ Val.null ≠ Val.bool true :=
  ⟨rfl, by decide, by decide⟩

/-- C10: a `reviewCategory` entry lacking the `category` key is not
skipped: its flattened key is the literal "cat_None", and when it is the
last entry flattening to that key the normalized row's category map
carries `cat_None ↦ the entry's rating`, like any other `cat_` key. -/
theorem cat_none_key (iso lenient : String → Option Int) (r : RawRecord)
    (pre post : List CatEntry) (e : CatEntry)
    (hes : r.reviewCategory = some (pre ++ e :: post))
    (hc : e.category = none)
    (hlast : ∀ e2 ∈ post, catKey e2 ≠ "cat_None") :
    catKey e = "cat_None"
    ∧ alookup (normRecord iso lenient r).cats "cat_None" = some (pyGet e.rating) := by
  have hk : catKey e = "cat_None" := by
    unfold catKey
    rw [hc]
    rfl
  refine ⟨hk, ?_⟩
  show alookup (flattenCats (r.reviewCategory.getD [])) "cat_None" = some (pyGet e.rating)
  rw [hes]
  show alookup (flattenCats (pre ++ e :: post)) "cat_None" = some (pyGet e.rating)
  have hpost : post.filter (fun c => catKey c = "cat_None") = [] :=
    List.filter_eq_nil_iff.mpr (fun e2 he2 => by simpa using hlast e2 he2)
  rw [alookup_flattenCats, List.filter_append, List.filter_cons_of_pos (by simpa using hk),
      hpost, List.getLast?_concat]
  rfl

/-- A category entry with a rating but no `category` key. -/
def demoCatEntry : CatEntry := { rating := some (Val.num 7) }

/-- A record whose category list holds only the key-less entry. -/
def demoRawCat : RawRecord :=
  { id := some (Val.num 3), reviewCategory := some [demoCatEntry] }

/-- C10 witness: the concrete record flattens to `cat_None ↦ 7`. -/
theorem cat_none_key_witness :
    alookup (normRecord isoDate? lenientNone demoRawCat).cats "cat_None"
      = some (Val.num 7) :=
  (cat_none_key isoDate? lenientNone demoRawCat [] [] demoCatEntry rfl rfl
    (fun e2 he2 => absurd he2 (List.not_mem_nil e2))).2
